import Mathlib

/-!
Shallow embedding of the multi-device sync subsystem of the Valut expense
tracker (backend sync router: `/push`, `/resolve-conflicts`, `/changes`,
with helpers `processSyncChange` and `mergeConflictData`, and the Expense,
Category and Budget Mongoose schemas).

Modelling conventions:
* JSON objects (change payloads, merge data) are association lists
  `List (String × Value)`; later `Object.assign` writes overwrite earlier
  keys in place (JS objects keep insertion order).
* Timestamps are `Nat` (milliseconds); the server clock is passed in
  explicitly as `now` (each `save` stamps `updatedAt := now`).
* A record's entity payload is kept as the field bag `fields`; the
  server-managed columns (`updatedAt`, soft-delete flags, `sync`) are
  separate structure fields.  Change payloads carry entity fields only.
* The Expense schema declares a `sync` subdocument (with defaults), the
  Category and Budget schemas do not; a record of those kinds therefore has
  `sync = none` and any access `existing.sync.deviceId` throws, modelled as
  `Except.error`.  Mongoose strict mode silently drops the `sync` object
  passed on creation and dotted `sync.*` paths in updates for those kinds.
* The push call runs in one storage transaction.  Every document it
  touches is loaded with `.session(session)`, so Mongoose associates the
  session with the document and every subsequent `save()` — including the
  Expense `softDelete`, which passes no explicit session — runs inside the
  transaction; `abortTransaction` therefore rolls the whole store back to
  the input state on any error.
* Storage failures are injected by `failAt`: the call fails at the start
  of the change (resp. resolution) with that index, modelling a
  persistence error at an arbitrary point of the batch.
-/

/-- Equality of call results is decidable (used to evaluate the model at
concrete inputs). -/
instance {e a : Type} [DecidableEq e] [DecidableEq a] : DecidableEq (Except e a) :=
  fun x y =>
    match x, y with
    | .ok v, .ok w =>
      if h : v = w then .isTrue (h ▸ rfl)
      else .isFalse (fun hh => h (Except.ok.inj hh))
    | .error v, .error w =>
      if h : v = w then .isTrue (h ▸ rfl)
      else .isFalse (fun hh => h (Except.error.inj hh))
    | .ok _, .error _ => .isFalse (fun hh => Except.noConfusion hh)
    | .error _, .ok _ => .isFalse (fun hh => Except.noConfusion hh)

/-- JSON-ish field values occurring in sync payloads. -/
inductive Value
  | str (s : String)
  | num (n : Int)
  | arr (xs : List String)
  deriving DecidableEq, Repr

/-- A JS object as an association list (key, value); insertion order kept. -/
abbrev Bag := List (String × Value)

/-- Read a field of a JS object (first binding of the key). -/
def getF (b : Bag) (k : String) : Option Value :=
  (b.find? (fun p => p.1 == k)).map Prod.snd

/-- Assign a field of a JS object: overwrite the key in place if present,
append it otherwise. -/
def setF (b : Bag) (k : String) (v : Value) : Bag :=
  if (b.find? (fun p => p.1 == k)).isSome then
    b.map (fun p => if p.1 == k then (k, v) else p)
  else
    b ++ [(k, v)]

/-- Last value an object literal binds for a key (later bindings win, as
in a sequence of assignments). -/
def lastVal : Bag → String → Option Value
  | [], _ => none
  | p :: d, k =>
    match lastVal d k with
    | some v => some v
    | none => if p.1 == k then some p.2 else none

/-- `Object.assign(base, d)`: write every binding of `d` onto `base`. -/
def assignBag (base d : Bag) : Bag :=
  d.foldl (fun m p => setF m p.1 p.2) base

/-- `[...new Set(xs)]`: drop duplicates keeping the first occurrence. -/
def dedupKeepFirst : List String → List String
  | [] => []
  | x :: xs => x :: (dedupKeepFirst xs).filter (fun y => !(y == x))

/-- The fields for which local changes are preferred in a merge
(`localPreferredFields` in the source). -/
def localPreferredFields : List String :=
  ["description", "amount", "category", "notes", "tags",
   "name", "color", "icon", "keywords"]

/-- The user-authored scalar fields of the merge policy (the
local-preferred fields other than the two array-valued ones). -/
def uaScalarFields : List String :=
  ["description", "amount", "category", "notes", "name", "color", "icon"]

/-- One iteration of the `localPreferredFields.forEach` loop: overwrite the
field if the local object defines it. -/
def prefStep (localData : Bag) (m : Bag) (f : String) : Bag :=
  match getF localData f with
  | some v => setF m f v
  | none => m

/-- `mergeConflictData(localData, remoteData)`: start from a copy of the
remote object, overwrite each local-preferred field that the local object
defines, then replace `tags` and `keywords` by the duplicate-free union
when both sides define them.  `tags`/`keywords` payloads are arrays of
strings per the schemas (`tags: [String]`, `keywords: [String]`). -/
def mergeConflictData (localData remoteData : Bag) : Bag :=
  let base := localPreferredFields.foldl (prefStep localData) remoteData
  let base2 := match getF localData "tags", getF remoteData "tags" with
    | some (Value.arr a), some (Value.arr b) =>
        setF base "tags" (Value.arr (dedupKeepFirst (a ++ b)))
    | _, _ => base
  match getF localData "keywords", getF remoteData "keywords" with
  | some (Value.arr a), some (Value.arr b) =>
      setF base2 "keywords" (Value.arr (dedupKeepFirst (a ++ b)))
  | _, _ => base2

/-- The `sync` subdocument of the Expense schema (Category and Budget have
no such subdocument). -/
structure SyncMeta where
  deviceId : Option String
  syncVersion : Nat
  lastSyncedAt : Nat
  hasConflict : Bool
  resolvedAt : Option Nat
  deriving DecidableEq, Repr

/-- A persisted record of any of the three entity kinds.  `isDeleted` and
`deletedAt` are the Expense soft-delete columns, `isActive` the
Category/Budget one; `sync` is `none` exactly for Category/Budget records
(their schemas do not declare it, and strict mode strips it on writes). -/
structure SRecord where
  id : Nat
  userId : Option Nat
  fields : Bag
  isDeleted : Bool
  deletedAt : Option Nat
  isActive : Bool
  updatedAt : Nat
  sync : Option SyncMeta
  deriving DecidableEq, Repr

/-- The three synced entity kinds. -/
inductive Kind
  | expense
  | category
  | budget
  deriving DecidableEq, Repr

/-- `Model.modelName.toLowerCase()`. -/
def kindName : Kind → String
  | .expense => "expense"
  | .category => "category"
  | .budget => "budget"

/-- A push change action. -/
inductive SAction
  | upsert
  | delete
  deriving DecidableEq, Repr

/-- An incoming push change `{id, action, data, clientTimestamp}`. -/
structure Change where
  id : Nat
  action : SAction
  data : Bag
  clientTimestamp : Nat
  deriving DecidableEq, Repr

/-- A conflict entry returned by `processSyncChange`. -/
structure Conflict where
  id : Nat
  type : String
  localData : Bag
  remoteData : SRecord
  reason : String
  deriving DecidableEq, Repr

/-- A processed (non-conflicting) change as reported in the response. -/
inductive Item
  | deleted (id : Nat)
  | saved (r : SRecord)
  deriving DecidableEq, Repr

/-- Result of one `processSyncChange` call: a conflict or a processed item. -/
inductive Outcome
  | conflict (c : Conflict)
  | item (i : Item)
  deriving DecidableEq, Repr

/-- Expense `save`: the pre-save hooks stamp `updatedAt` and
`sync.lastSyncedAt` with the current time. -/
def saveExpense (now : Nat) (r : SRecord) : SRecord :=
  { r with updatedAt := now,
           sync := r.sync.map (fun m => { m with lastSyncedAt := now }) }

/-- Category/Budget `save`: the pre-save hook stamps `updatedAt` (the
Budget hook also maintains fields not modelled here). -/
def saveOther (now : Nat) (r : SRecord) : SRecord :=
  { r with updatedAt := now }

/-- Dispatch `save` by entity kind. -/
def saveByKind : Kind → Nat → SRecord → SRecord
  | .expense, now, r => saveExpense now r
  | .category, now, r => saveOther now r
  | .budget, now, r => saveOther now r

/-- `Model.findById(id)` over a collection. -/
def findRec (coll : List SRecord) (i : Nat) : Option SRecord :=
  coll.find? (fun r => r.id == i)

/-- Persist an updated record in place of the old one with the same id. -/
def replaceRec (coll : List SRecord) (r : SRecord) : List SRecord :=
  coll.map (fun x => if x.id == r.id then r else x)

/-- Error message of the `TypeError` raised when the update path touches
`existing.sync` on a record whose schema has no `sync` subdocument. -/
def syncUndefinedMsg : String := "TypeError: existing.sync is undefined"

/-- Message of an injected storage failure. -/
def storageErrMsg : String := "storage error"

/-- `processSyncChange(Model, change, userId, deviceId, session)`.

Returns the outcome and the updated collection.  Every write runs inside
the call's transaction: the document is loaded with `.session(session)`,
so the session stays associated with it and even the Expense
`softDelete`'s plain `this.save()` runs in the transaction.  A thrown
`TypeError` (Category or Budget update reaching `existing.sync.deviceId`)
is `Except.error`; the in-memory `Object.assign` preceding the throw is
never persisted. -/
def processSyncChange (k : Kind) (userId : Nat) (deviceId : String)
    (now : Nat) (c : Change) (coll : List SRecord) :
    Except String (Outcome × List SRecord) :=
  match c.action with
  | .delete =>
    match findRec coll c.id with
    | some existing =>
      if c.clientTimestamp < existing.updatedAt then
        .ok (.conflict ⟨c.id, kindName k, c.data, existing,
              "newer_version_exists"⟩, coll)
      else
        match k with
        | .expense =>
          let r := saveExpense now
            { existing with isDeleted := true, deletedAt := some now }
          .ok (.item (.deleted c.id), replaceRec coll r)
        | _ =>
          let r := saveOther now { existing with isActive := false }
          .ok (.item (.deleted c.id), replaceRec coll r)
    | none => .ok (.item (.deleted c.id), coll)
  | .upsert =>
    match findRec coll c.id with
    | some existing =>
      if c.clientTimestamp < existing.updatedAt then
        .ok (.conflict ⟨c.id, kindName k, c.data, existing,
              "concurrent_modification"⟩, coll)
      else
        match existing.sync with
        | none => .error syncUndefinedMsg
        | some m =>
          let r := saveByKind k now
            { existing with
                fields := assignBag existing.fields c.data,
                sync := some { m with deviceId := some deviceId,
                                      syncVersion := m.syncVersion + 1 } }
          .ok (.item (.saved r), replaceRec coll r)
    | none =>
      let r := saveByKind k now
        { id := c.id, userId := some userId, fields := c.data,
          isDeleted := false, deletedAt := none, isActive := true,
          updatedAt := 0,
          sync := if k = .expense
                  then some ⟨some deviceId, 1, now, false, none⟩
                  else none }
      .ok (.item (.saved r), coll ++ [r])

/-- The server store: one collection per entity kind. -/
structure Store where
  expenses : List SRecord
  categories : List SRecord
  budgets : List SRecord
  deriving DecidableEq, Repr

/-- Collection of a kind. -/
def collOf (s : Store) : Kind → List SRecord
  | .expense => s.expenses
  | .category => s.categories
  | .budget => s.budgets

/-- Replace the collection of a kind. -/
def setColl (s : Store) (k : Kind) (coll : List SRecord) : Store :=
  match k with
  | .expense => { s with expenses := coll }
  | .category => { s with categories := coll }
  | .budget => { s with budgets := coll }

/-- A push request body's `changes` object. -/
structure Batch where
  expenses : List Change
  categories : List Change
  budgets : List Change
  deriving DecidableEq, Repr

/-- A batch holding a single change of the given kind. -/
def batchOf (k : Kind) (c : Change) : Batch :=
  match k with
  | .expense => ⟨[c], [], []⟩
  | .category => ⟨[], [c], []⟩
  | .budget => ⟨[], [], [c]⟩

/-- The `{conflicts, processed}` part of a successful push response. -/
structure PushResult where
  conflicts : List Conflict
  processedExpenses : List Item
  processedCategories : List Item
  processedBudgets : List Item
  deriving DecidableEq, Repr

/-- Process the changes of one entity kind in list order inside the
transaction.  `idx` numbers the changes across the whole push for the
injected failure point `failAt`.  Returns the conflicts and processed
items (or the first error), the collection as updated so far, and the
next change index. -/
def pushKind (k : Kind) (u : Nat) (d : String) (now : Nat)
    (failAt : Option Nat) :
    List Change → Nat → List SRecord →
    (Except String (List Conflict × List Item)) × List SRecord × Nat
  | [], idx, live => (.ok ([], []), live, idx)
  | c :: cs, idx, live =>
    if failAt = some idx then (.error storageErrMsg, live, idx)
    else
      match processSyncChange k u d now c live with
      | .error e => (.error e, live, idx)
      | .ok (out, live2) =>
        match pushKind k u d now failAt cs (idx + 1) live2 with
        | (.error e, l, i) => (.error e, l, i)
        | (.ok (cfs, its), l, i) =>
          match out with
          | .conflict cf => (.ok (cf :: cfs, its), l, i)
          | .item it => (.ok (cfs, it :: its), l, i)

/-- `POST /push`: process expenses, then categories, then budgets, inside
one transaction.  On success the transaction commits and the updated
store becomes the new state; on any error the transaction aborts and the
whole store rolls back to the input state (every write of the batch,
including Expense soft-deletes, ran in the session).  The device
`lastSyncAt` bump and the websocket broadcast are not modelled. -/
def push (u : Nat) (d : String) (now : Nat) (failAt : Option Nat)
    (b : Batch) (s : Store) : Except String PushResult × Store :=
  match pushKind .expense u d now failAt b.expenses 0 s.expenses with
  | (.error e, _, _) => (.error e, s)
  | (.ok (cfE, itE), liveE, i1) =>
    match pushKind .category u d now failAt b.categories i1 s.categories with
    | (.error e, _, _) => (.error e, s)
    | (.ok (cfC, itC), liveC, i2) =>
      match pushKind .budget u d now failAt b.budgets i2 s.budgets with
      | (.error e, _, _) => (.error e, s)
      | (.ok (cfB, itB), liveB, _) =>
        (.ok ⟨cfE ++ cfC ++ cfB, itE, itC, itB⟩,
         { expenses := liveE, categories := liveC, budgets := liveB })

/-- Order used by the change feed: ascending `updatedAt` only
(`.sort({ updatedAt: 1 })` — no further sort key). -/
def feedLE (a b : SRecord) : Prop := a.updatedAt ≤ b.updatedAt

instance : DecidableRel feedLE := fun a b => Nat.decLe a.updatedAt b.updatedAt

instance : IsTotal SRecord feedLE := ⟨fun a b => Nat.le_total a.updatedAt b.updatedAt⟩

instance : IsTrans SRecord feedLE := ⟨fun _ _ _ h1 h2 => Nat.le_trans h1 h2⟩

/-- The records a `GET /changes` query returns for one collection:
`{userId, updatedAt: {$gt: since}}`, sorted ascending by `updatedAt`.
Mongo guarantees nothing about the relative order of equal keys; the
model keeps ties in document (store) order, as a stable sort does. -/
def changesQuery (u : Nat) (since : Nat) (coll : List SRecord) : List SRecord :=
  List.insertionSort feedLE
    (coll.filter (fun r => r.userId == some u && since < r.updatedAt))

/-- One entry of the `changes` arrays in the `GET /changes` response. -/
structure ChangeEvent where
  id : Nat
  action : SAction
  data : Option SRecord
  updatedAt : Nat
  deriving DecidableEq, Repr

/-- Expense rows: deleted records are reported as `delete` with no data. -/
def expenseEvent (r : SRecord) : ChangeEvent :=
  { id := r.id,
    action := if r.isDeleted then .delete else .upsert,
    data := if r.isDeleted then none else some r,
    updatedAt := r.updatedAt }

/-- Category/Budget rows: inactive records are reported as `delete`. -/
def activeEvent (r : SRecord) : ChangeEvent :=
  { id := r.id,
    action := if r.isActive then .upsert else .delete,
    data := if r.isActive then some r else none,
    updatedAt := r.updatedAt }

/-- `GET /changes`: the three change lists of the response. -/
def changesFeed (u : Nat) (since : Nat) (s : Store) :
    List ChangeEvent × List ChangeEvent × List ChangeEvent :=
  ((changesQuery u since s.expenses).map expenseEvent,
   (changesQuery u since s.categories).map activeEvent,
   (changesQuery u since s.budgets).map activeEvent)

/-- One entry of a `POST /resolve-conflicts` request. -/
structure ResolutionReq where
  id : Nat
  type : String
  resolution : String
  localData : Bag
  remoteData : Bag
  deriving DecidableEq, Repr

/-- The `switch (type)` of the resolver; unknown types are skipped. -/
def parseKind : String → Option Kind
  | "expense" => some .expense
  | "category" => some .category
  | "budget" => some .budget
  | _ => none

/-- The `switch (resolution)` of the resolver; unknown strategies are
skipped. -/
def finalDataFor (req : ResolutionReq) : Option Bag :=
  match req.resolution with
  | "local" => some req.localData
  | "remote" => some req.remoteData
  | "merge" => some (mergeConflictData req.localData req.remoteData)
  | _ => none

/-- One entry of the `resolved` array of the response. -/
structure ResolvedItem where
  id : Nat
  type : String
  resolution : String
  data : SRecord
  deriving DecidableEq, Repr

/-- `Model.findByIdAndUpdate(id, {...finalData, conflict markers},
{new, session, upsert})`.  No `save` middleware runs, so neither
`updatedAt` nor `sync.syncVersion` changes on an existing record; the
dotted `sync.conflictResolution.*` paths only exist on Expense records
(strict mode drops them for Category/Budget).  When the record is missing
the upsert inserts it with schema defaults. -/
def resolveUpdate (k : Kind) (i : Nat) (fd : Bag) (now : Nat)
    (coll : List SRecord) : SRecord × List SRecord :=
  match findRec coll i with
  | some existing =>
    let r := { existing with
      fields := assignBag existing.fields fd,
      sync := existing.sync.map
        (fun m => { m with hasConflict := false, resolvedAt := some now }) }
    (r, replaceRec coll r)
  | none =>
    let r : SRecord :=
      { id := i, userId := none, fields := fd,
        isDeleted := false, deletedAt := none, isActive := true,
        updatedAt := now,
        sync := if k = .expense
                then some ⟨none, 1, now, false, some now⟩
                else none }
    (r, coll ++ [r])

/-- One iteration of the resolver loop: `none` when the entry is skipped
(`continue`), otherwise the resolved item and the updated store. -/
def resolveStep (now : Nat) (req : ResolutionReq) (s : Store) :
    Option (ResolvedItem × Store) :=
  match parseKind req.type with
  | none => none
  | some k =>
    match finalDataFor req with
    | none => none
    | some fd =>
      let (r, coll2) := resolveUpdate k req.id fd now (collOf s k)
      some (⟨req.id, req.type, req.resolution, r⟩, setColl s k coll2)

/-- The resolver loop; `idx` numbers the entries for the injected failure
point `failAt`. -/
def resolveAux (now : Nat) (failAt : Option Nat) :
    List ResolutionReq → Nat → Store →
    (Except String (List ResolvedItem)) × Store
  | [], _, s => (.ok [], s)
  | req :: reqs, idx, s =>
    if failAt = some idx then (.error storageErrMsg, s)
    else
      match resolveStep now req s with
      | none => resolveAux now failAt reqs (idx + 1) s
      | some (item, s2) =>
        match resolveAux now failAt reqs (idx + 1) s2 with
        | (.error e, s3) => (.error e, s3)
        | (.ok items, s3) => (.ok (item :: items), s3)

/-- `POST /resolve-conflicts`: every update runs with the session inside
one transaction, so an error anywhere aborts the call and rolls the whole
store back to its input state. -/
def resolveConflicts (failAt : Option Nat) (now : Nat)
    (reqs : List ResolutionReq) (s : Store) :
    (Except String (List ResolvedItem)) × Store :=
  match resolveAux now failAt reqs 0 s with
  | (.error e, _) => (.error e, s)
  | (.ok items, s2) => (.ok items, s2)

/-! ### Lemmas about the field-bag operations -/

theorem getF_map_set (b : Bag) (k : String) (v : Value) :
    getF (b.map (fun p => if p.1 == k then (k, v) else p)) k =
      if (b.find? (fun p => p.1 == k)).isSome then some v else none := by
  induction b with
  | nil => simp [getF]
  | cons p b ih =>
    cases hp : (p.1 == k) with
    | true =>
      have hhead : (if p.1 == k then ((k, v) : String × Value) else p) = (k, v) := by
        simp [hp]
      have e1 := List.find?_cons_of_pos (p := fun q => q.1 == k)
        (a := ((k, v) : String × Value)) (b.map (fun p => if p.1 == k then (k, v) else p))
        (by simp)
      have e2 := List.find?_cons_of_pos (p := fun q => q.1 == k) (a := p) b hp
      rw [List.map_cons, hhead, getF, e1, e2]
      rfl
    | false =>
      have hhead : (if p.1 == k then ((k, v) : String × Value) else p) = p := by
        simp [hp]
      have e1 := List.find?_cons_of_neg (p := fun q => q.1 == k) (a := p)
        (b.map (fun p => if p.1 == k then (k, v) else p)) (by simp [hp])
      have e2 := List.find?_cons_of_neg (p := fun q => q.1 == k) (a := p) b (by simp [hp])
      rw [List.map_cons, hhead, getF, e1, e2, ← getF]
      exact ih

theorem getF_setF_self (b : Bag) (k : String) (v : Value) :
    getF (setF b k v) k = some v := by
  unfold setF
  by_cases h : (b.find? (fun p => p.1 == k)).isSome
  · simp only [h, if_true]
    rw [getF_map_set, if_pos h]
  · simp only [h, if_false]
    have hnone : b.find? (fun p => p.1 == k) = none :=
      Option.not_isSome_iff_eq_none.mp h
    simp [getF, List.find?_append, hnone]

theorem getF_map_set_ne (b : Bag) (k k2 : String) (v : Value) (h : k2 ≠ k) :
    getF (b.map (fun p => if p.1 == k then (k, v) else p)) k2 = getF b k2 := by
  induction b with
  | nil => simp [getF]
  | cons p b ih =>
    cases hp : (p.1 == k) with
    | true =>
      have hpk : p.1 = k := by simpa using hp
      have hhead : (if p.1 == k then ((k, v) : String × Value) else p) = (k, v) := by
        simp [hp]
      have e1 := List.find?_cons_of_neg (p := fun q => q.1 == k2)
        (a := ((k, v) : String × Value))
        (b.map (fun p => if p.1 == k then (k, v) else p)) (by simp [Ne.symm h])
      have e2 := List.find?_cons_of_neg (p := fun q => q.1 == k2) (a := p) b
        (by simp [hpk, Ne.symm h])
      rw [List.map_cons, hhead, getF, e1, getF, e2, ← getF, ← getF]
      exact ih
    | false =>
      have hhead : (if p.1 == k then ((k, v) : String × Value) else p) = p := by
        simp [hp]
      cases hq : (p.1 == k2) with
      | true =>
        have e1 := List.find?_cons_of_pos (p := fun q => q.1 == k2) (a := p)
          (b.map (fun p => if p.1 == k then (k, v) else p)) hq
        have e2 := List.find?_cons_of_pos (p := fun q => q.1 == k2) (a := p) b hq
        rw [List.map_cons, hhead, getF, e1, getF, e2]
      | false =>
        have e1 := List.find?_cons_of_neg (p := fun q => q.1 == k2) (a := p)
          (b.map (fun p => if p.1 == k then (k, v) else p)) (by simp [hq])
        have e2 := List.find?_cons_of_neg (p := fun q => q.1 == k2) (a := p) b
          (by simp [hq])
        rw [List.map_cons, hhead, getF, e1, getF, e2, ← getF, ← getF]
        exact ih

theorem getF_setF_ne (b : Bag) (k k2 : String) (v : Value) (h : k2 ≠ k) :
    getF (setF b k v) k2 = getF b k2 := by
  have hkk : (k == k2) = false := by simp [Ne.symm h]
  unfold setF
  by_cases hs : (b.find? (fun p => p.1 == k)).isSome
  · simp only [hs, if_true]
    exact getF_map_set_ne b k k2 v h
  · simp only [hs, if_false]
    simp [getF, List.find?_append, hkk]

theorem mem_dedupKeepFirst (l : List String) (x : String) :
    x ∈ dedupKeepFirst l ↔ x ∈ l := by
  induction l with
  | nil => simp [dedupKeepFirst]
  | cons y l ih =>
    by_cases hx : x = y
    · simp [dedupKeepFirst, hx]
    · simp [dedupKeepFirst, hx, List.mem_filter, ih]

theorem nodup_dedupKeepFirst (l : List String) : (dedupKeepFirst l).Nodup := by
  induction l with
  | nil => simp [dedupKeepFirst]
  | cons y l ih =>
    refine List.Nodup.cons ?_ (List.Nodup.filter _ ih)
    intro hy
    have := (List.mem_filter.mp hy).2
    simp at this

/-! ### Lemmas about the local-preferred-fields loop -/

theorem getF_prefFold_notmem (l : Bag) (fs : List String) (m : Bag)
    (f : String) (h : f ∉ fs) :
    getF (fs.foldl (prefStep l) m) f = getF m f := by
  induction fs generalizing m with
  | nil => rfl
  | cons g fs ih =>
    have hne : f ≠ g := fun e => h (e ▸ List.mem_cons_self g fs)
    have hnot : f ∉ fs := fun e => h (List.mem_cons_of_mem g e)
    rw [List.foldl_cons, ih _ hnot]
    unfold prefStep
    cases hg : getF l g with
    | none => rfl
    | some v => exact getF_setF_ne m g f v hne

theorem getF_prefFold_none (l : Bag) (fs : List String) (m : Bag)
    (f : String) (h : getF l f = none) :
    getF (fs.foldl (prefStep l) m) f = getF m f := by
  induction fs generalizing m with
  | nil => rfl
  | cons g fs ih =>
    rw [List.foldl_cons, ih]
    unfold prefStep
    cases hg : getF l g with
    | none => rfl
    | some v =>
      have hne : f ≠ g := by
        rintro rfl
        rw [h] at hg
        exact Option.noConfusion hg
      exact getF_setF_ne m g f v hne

theorem getF_prefFold_of_mem (l : Bag) (fs : List String) (m : Bag)
    (f : String) (v : Value) (hv : getF l f = some v) (hm : f ∈ fs) :
    getF (fs.foldl (prefStep l) m) f = some v := by
  induction fs generalizing m with
  | nil => cases hm
  | cons g fs ih =>
    rw [List.foldl_cons]
    by_cases hf : f ∈ fs
    · exact ih _ hf
    · have hfg : f = g := by
        rcases List.mem_cons.mp hm with h | h
        · exact h
        · exact absurd h hf
      subst hfg
      rw [getF_prefFold_notmem l fs _ f hf]
      unfold prefStep
      rw [hv]
      exact getF_setF_self m f v

/-! ### Lemmas locating fields in the merged object -/

theorem getF_merge_not_tk (l r : Bag) (f : String)
    (h1 : f ≠ "tags") (h2 : f ≠ "keywords") :
    getF (mergeConflictData l r) f =
      getF (localPreferredFields.foldl (prefStep l) r) f := by
  simp only [mergeConflictData]
  split
  · rw [getF_setF_ne _ _ _ _ h2]
    split
    · rw [getF_setF_ne _ _ _ _ h1]
    · rfl
  · split
    · rw [getF_setF_ne _ _ _ _ h1]
    · rfl

theorem getF_merge_tags_skip (l r : Bag)
    (h : getF l "tags" = none ∨ getF r "tags" = none) :
    getF (mergeConflictData l r) "tags" =
      getF (localPreferredFields.foldl (prefStep l) r) "tags" := by
  simp only [mergeConflictData]
  split
  · rw [getF_setF_ne _ _ _ _ (by decide : ("tags" : String) ≠ "keywords")]
    split
    · next h1 h2 =>
      rcases h with h | h
      · rw [h] at h1; exact Option.noConfusion h1
      · rw [h] at h2; exact Option.noConfusion h2
    · rfl
  · split
    · next h1 h2 =>
      rcases h with h | h
      · rw [h] at h1; exact Option.noConfusion h1
      · rw [h] at h2; exact Option.noConfusion h2
    · rfl

theorem getF_merge_kw_skip (l r : Bag)
    (h : getF l "keywords" = none ∨ getF r "keywords" = none) :
    getF (mergeConflictData l r) "keywords" =
      getF (localPreferredFields.foldl (prefStep l) r) "keywords" := by
  simp only [mergeConflictData]
  split
  · next h1 h2 =>
    rcases h with h | h
    · rw [h] at h1; exact Option.noConfusion h1
    · rw [h] at h2; exact Option.noConfusion h2
  · split
    · rw [getF_setF_ne _ _ _ _ (by decide : ("keywords" : String) ≠ "tags")]
    · rfl

/-- C5: when both the local and the remote side of a merge resolution
define the array field `tags` (resp. `keywords`), the merged value of that
field is exactly the duplicate-free union of the two arrays: it contains
an element iff one of the sides does, and it contains no duplicates. -/
theorem c5_merge_union_law (l r : Bag) (a b : List String) :
    (getF l "tags" = some (Value.arr a) →
     getF r "tags" = some (Value.arr b) →
     getF (mergeConflictData l r) "tags" =
       some (Value.arr (dedupKeepFirst (a ++ b))))
    ∧ (getF l "keywords" = some (Value.arr a) →
       getF r "keywords" = some (Value.arr b) →
       getF (mergeConflictData l r) "keywords" =
         some (Value.arr (dedupKeepFirst (a ++ b))))
    ∧ (dedupKeepFirst (a ++ b)).Nodup
    ∧ (∀ x, x ∈ dedupKeepFirst (a ++ b) ↔ (x ∈ a ∨ x ∈ b)) := by
  refine ⟨?_, ?_, nodup_dedupKeepFirst _, fun x => by
    rw [mem_dedupKeepFirst]; exact List.mem_append⟩
  · intro hl hr
    simp only [mergeConflictData, hl, hr]
    split
    · rw [getF_setF_ne _ _ _ _ (by decide : ("tags" : String) ≠ "keywords")]
      exact getF_setF_self _ _ _
    · exact getF_setF_self _ _ _
  · intro hl hr
    simp only [mergeConflictData, hl, hr]
    exact getF_setF_self _ _ _

/-- Witness for C5 at the concrete arrays of the spec example:
local `tags = [a, b]`, remote `tags = [b, c]`. -/
theorem c5_merge_union_law_witness :
    getF (mergeConflictData
        [("tags", Value.arr ["a", "b"])] [("tags", Value.arr ["b", "c"])])
      "tags" = some (Value.arr ["a", "b", "c"]) := by
  have h := (c5_merge_union_law
    [("tags", Value.arr ["a", "b"])] [("tags", Value.arr ["b", "c"])]
    ["a", "b"] ["b", "c"]).1 (by decide) (by decide)
  rw [h]
  decide

/-- C6: a merge resolution starts from the remote record as the base; for
each user-authored scalar field, and for `tags`/`keywords` when only the
local side defines them, a defined local value wins unconditionally; a
local-preferred field the local side does not define, and every field
outside the local-preferred set, retain the remote value. -/
theorem c6_merge_local_wins (l r : Bag) :
    (∀ f v, f ∈ uaScalarFields → getF l f = some v →
        getF (mergeConflictData l r) f = some v)
    ∧ (∀ v, getF l "tags" = some v → getF r "tags" = none →
        getF (mergeConflictData l r) "tags" = some v)
    ∧ (∀ v, getF l "keywords" = some v → getF r "keywords" = none →
        getF (mergeConflictData l r) "keywords" = some v)
    ∧ (∀ f, f ∈ localPreferredFields → getF l f = none →
        getF (mergeConflictData l r) f = getF r f)
    ∧ (∀ f, f ∉ localPreferredFields →
        getF (mergeConflictData l r) f = getF r f) := by
  refine ⟨?_, ?_, ?_, ?_, ?_⟩
  · intro f v hf hv
    simp only [uaScalarFields, List.mem_cons, List.not_mem_nil, or_false] at hf
    rcases hf with rfl | rfl | rfl | rfl | rfl | rfl | rfl <;>
      (rw [getF_merge_not_tk l r _ (by decide) (by decide)];
       exact getF_prefFold_of_mem l _ r _ v hv (by decide))
  · intro v hv hr
    rw [getF_merge_tags_skip l r (Or.inr hr)]
    exact getF_prefFold_of_mem l _ r _ v hv (by decide)
  · intro v hv hr
    rw [getF_merge_kw_skip l r (Or.inr hr)]
    exact getF_prefFold_of_mem l _ r _ v hv (by decide)
  · intro f hf hnone
    by_cases h1 : f = "tags"
    · subst h1
      rw [getF_merge_tags_skip l r (Or.inl hnone)]
      exact getF_prefFold_none l _ r _ hnone
    · by_cases h2 : f = "keywords"
      · subst h2
        rw [getF_merge_kw_skip l r (Or.inl hnone)]
        exact getF_prefFold_none l _ r _ hnone
      · rw [getF_merge_not_tk l r f h1 h2]
        exact getF_prefFold_none l _ r _ hnone
  · intro f hf
    have h1 : f ≠ "tags" := by
      rintro rfl; exact hf (by decide)
    have h2 : f ≠ "keywords" := by
      rintro rfl; exact hf (by decide)
    rw [getF_merge_not_tk l r f h1 h2]
    exact getF_prefFold_notmem l _ r f hf

/-- Witness for C6 at the concrete example of the spec: local
`amount = 50` beats remote `amount = 40`, and the remote-only field
`spent` keeps its remote value. -/
theorem c6_merge_local_wins_witness :
    getF (mergeConflictData [("amount", Value.num 50)]
        [("amount", Value.num 40), ("spent", Value.num 7)]) "amount" =
      some (Value.num 50)
    ∧ getF (mergeConflictData [("amount", Value.num 50)]
        [("amount", Value.num 40), ("spent", Value.num 7)]) "spent" =
      getF [("amount", Value.num 40), ("spent", Value.num 7)] "spent" := by
  constructor
  · exact (c6_merge_local_wins [("amount", Value.num 50)]
      [("amount", Value.num 40), ("spent", Value.num 7)]).1
      "amount" (Value.num 50) (by decide) (by decide)
  · exact (c6_merge_local_wins [("amount", Value.num 50)]
      [("amount", Value.num 40), ("spent", Value.num 7)]).2.2.2.2
      "spent" (by decide)

/-- C1: a push change (upsert or delete) addressing a record whose server
`updatedAt` is strictly newer than the change's `clientTimestamp` yields
exactly one conflict entry — reason `concurrent_modification` for upserts
and `newer_version_exists` for deletes, carrying the incoming payload as
`localData` and the current server record as `remoteData` — and the store
is returned unchanged. -/
theorem c1_conflict_never_silent_overwrite (k : Kind) (u : Nat) (d : String)
    (now : Nat) (c : Change) (s : Store) (ex : SRecord)
    (hfind : findRec (collOf s k) c.id = some ex)
    (hnewer : c.clientTimestamp < ex.updatedAt) :
    push u d now none (batchOf k c) s =
      (.ok { conflicts := [⟨c.id, kindName k, c.data, ex,
               match c.action with
               | .upsert => "concurrent_modification"
               | .delete => "newer_version_exists"⟩],
             processedExpenses := [], processedCategories := [],
             processedBudgets := [] }, s) := by
  cases k <;> cases hact : c.action <;>
    simp_all [push, pushKind, batchOf, processSyncChange, collOf]

/-- Witness for C1: a concrete delete and a concrete upsert against a
record with `updatedAt = 9` and `clientTimestamp = 4`. -/
theorem c1_conflict_never_silent_overwrite_witness :
    push 1 "devA" 20 none
        (batchOf .expense ⟨5, .upsert, [("amount", Value.num 60)], 4⟩)
        { expenses := [⟨5, some 1, [], false, none, true, 9,
            some ⟨none, 3, 0, false, none⟩⟩], categories := [], budgets := [] } =
      (.ok { conflicts := [⟨5, "expense", [("amount", Value.num 60)],
               ⟨5, some 1, [], false, none, true, 9,
                 some ⟨none, 3, 0, false, none⟩⟩, "concurrent_modification"⟩],
             processedExpenses := [], processedCategories := [],
             processedBudgets := [] },
       { expenses := [⟨5, some 1, [], false, none, true, 9,
           some ⟨none, 3, 0, false, none⟩⟩], categories := [], budgets := [] }) := by
  have h := c1_conflict_never_silent_overwrite .expense 1 "devA" 20
    ⟨5, .upsert, [("amount", Value.num 60)], 4⟩
    { expenses := [⟨5, some 1, [], false, none, true, 9,
        some ⟨none, 3, 0, false, none⟩⟩], categories := [], budgets := [] }
    ⟨5, some 1, [], false, none, true, 9, some ⟨none, 3, 0, false, none⟩⟩
    (by decide) (by decide)
  exact h

/-- C2 counterexample: an upsert on an existing Category record with
`clientTimestamp` (9) ahead of the server `updatedAt` (3) is not applied:
the push call throws (`sync` is undefined on Category documents) and the
store is unchanged, contradicting the claim for the Category entity kind. -/
theorem c2_counterexample :
    push 1 "devA" 20 none
        (batchOf .category ⟨10, .upsert, [("name", Value.str "Eats")], 9⟩)
        { expenses := [],
          categories := [⟨10, some 1, [("name", Value.str "Food")], false,
            none, true, 3, none⟩],
          budgets := [] } =
      (.error syncUndefinedMsg,
       { expenses := [],
         categories := [⟨10, some 1, [("name", Value.str "Food")], false,
           none, true, 3, none⟩],
         budgets := [] }) := by
  decide

/-- C2 amended: for an existing Expense record (whose schema does carry the
`sync` subdocument), a push upsert with `clientTimestamp ≥ updatedAt` is
applied — the incoming fields shallow-overwrite the record and
`sync.syncVersion` increases by exactly 1. -/
theorem c2_expense_safe_update (u : Nat) (d : String) (now : Nat)
    (c : Change) (s : Store) (ex : SRecord) (m : SyncMeta)
    (hact : c.action = .upsert)
    (hfind : findRec s.expenses c.id = some ex)
    (hts : ex.updatedAt ≤ c.clientTimestamp)
    (hsync : ex.sync = some m) :
    ∃ r, push u d now none (batchOf .expense c) s =
        (.ok { conflicts := [], processedExpenses := [.saved r],
               processedCategories := [], processedBudgets := [] },
         { s with expenses := replaceRec s.expenses r })
      ∧ r.fields = assignBag ex.fields c.data
      ∧ r.sync = some { m with deviceId := some d,
                               syncVersion := m.syncVersion + 1,
                               lastSyncedAt := now }
      ∧ r.updatedAt = now := by
  have hnlt : ¬c.clientTimestamp < ex.updatedAt := not_lt.mpr hts
  refine ⟨saveExpense now
    { ex with fields := assignBag ex.fields c.data,
              sync := some { m with deviceId := some d,
                                    syncVersion := m.syncVersion + 1 } },
    ?_, ?_, ?_, ?_⟩
  · simp [push, pushKind, batchOf, processSyncChange, saveByKind,
      hact, hfind, hnlt, hsync]
  · rfl
  · simp [saveExpense]
  · rfl

/-- Witness for the amended C2 at a concrete store: existing amount 10,
syncVersion 3, updated to amount 60 with syncVersion 4. -/
theorem c2_expense_safe_update_witness :
    ∃ r, push 1 "devA" 20 none
        (batchOf .expense ⟨5, .upsert, [("amount", Value.num 60)], 9⟩)
        { expenses := [⟨5, some 1, [("amount", Value.num 10)], false, none,
            true, 3, some ⟨none, 3, 0, false, none⟩⟩],
          categories := [], budgets := [] } =
        (.ok { conflicts := [], processedExpenses := [.saved r],
               processedCategories := [], processedBudgets := [] },
         { expenses := replaceRec
             [⟨5, some 1, [("amount", Value.num 10)], false, none,
               true, 3, some ⟨none, 3, 0, false, none⟩⟩] r,
           categories := [], budgets := [] })
      ∧ r.fields = assignBag [("amount", Value.num 10)] [("amount", Value.num 60)]
      ∧ r.sync = some ⟨some "devA", 4, 20, false, none⟩
      ∧ r.updatedAt = 20 :=
  c2_expense_safe_update 1 "devA" 20
    ⟨5, .upsert, [("amount", Value.num 60)], 9⟩
    { expenses := [⟨5, some 1, [("amount", Value.num 10)], false, none,
        true, 3, some ⟨none, 3, 0, false, none⟩⟩],
      categories := [], budgets := [] }
    ⟨5, some 1, [("amount", Value.num 10)], false, none, true, 3,
      some ⟨none, 3, 0, false, none⟩⟩
    ⟨none, 3, 0, false, none⟩ rfl (by decide) (by decide) rfl

/-- C10: a push upsert addressing an existing Category or Budget record
whose `updatedAt` is not newer than the `clientTimestamp` throws in the
update step (those schemas define no `sync` subdocument), aborting the
whole push with a 500 error and rolling the entire call back: the store is
returned unchanged, so no existing Category or Budget can ever be updated
through sync push, and the other changes of the batch — including an
Expense soft-delete already performed inside the transaction — are
lost. -/
theorem c10_category_budget_update_throws :
    (∀ (k : Kind) (u : Nat) (d : String) (now : Nat) (c : Change)
       (s : Store) (ex : SRecord),
       k ≠ .expense → c.action = .upsert →
       findRec (collOf s k) c.id = some ex →
       ex.updatedAt ≤ c.clientTimestamp → ex.sync = none →
       push u d now none (batchOf k c) s = (.error syncUndefinedMsg, s))
    ∧ (∀ (u : Nat) (d : String) (now : Nat) (cd c : Change) (s : Store)
         (exD ex : SRecord),
         cd.action = .delete → findRec s.expenses cd.id = some exD →
         exD.updatedAt ≤ cd.clientTimestamp →
         c.action = .upsert → findRec s.categories c.id = some ex →
         ex.updatedAt ≤ c.clientTimestamp → ex.sync = none →
         push u d now none ⟨[cd], [c], []⟩ s =
           (.error syncUndefinedMsg, s)) := by
  constructor
  · intro k u d now c s ex hk hact hfind hts hsync
    have hnlt : ¬c.clientTimestamp < ex.updatedAt := not_lt.mpr hts
    cases k with
    | expense => exact absurd rfl hk
    | category =>
      simp only [collOf] at hfind
      simp [push, pushKind, batchOf, processSyncChange, hact, hfind, hnlt, hsync]
    | budget =>
      simp only [collOf] at hfind
      simp [push, pushKind, batchOf, processSyncChange, hact, hfind, hnlt, hsync]
  · intro u d now cd c s exD ex hactD hfindD htsD hact hfind hts hsync
    have hnltD : ¬cd.clientTimestamp < exD.updatedAt := not_lt.mpr htsD
    have hnlt : ¬c.clientTimestamp < ex.updatedAt := not_lt.mpr hts
    simp [push, pushKind, processSyncChange, hactD, hfindD, hnltD,
      hact, hfind, hnlt, hsync]

/-- Witness for C10: a Budget upsert on an existing record is rejected
with the `TypeError` and the store is unchanged; and a batch pairing an
Expense delete with a throwing Category upsert fails with the whole store
rolled back — the soft-delete is lost. -/
theorem c10_category_budget_update_throws_witness :
    push 2 "devE" 50 none
        (batchOf .budget ⟨30, .upsert, [("amount", Value.num 500)], 45⟩)
        { expenses := [], categories := [],
          budgets := [⟨30, some 2, [("amount", Value.num 300)], false, none,
            true, 40, none⟩] } =
      (.error syncUndefinedMsg,
       { expenses := [], categories := [],
         budgets := [⟨30, some 2, [("amount", Value.num 300)], false, none,
           true, 40, none⟩] })
    ∧ push 2 "devE" 50 none
        ⟨[⟨31, .delete, [], 45⟩], [⟨32, .upsert, [], 45⟩], []⟩
        { expenses := [⟨31, some 2, [], false, none, true, 40,
            some ⟨none, 1, 0, false, none⟩⟩],
          categories := [⟨32, some 2, [], false, none, true, 40, none⟩],
          budgets := [] } =
      (.error syncUndefinedMsg,
       { expenses := [⟨31, some 2, [], false, none, true, 40,
           some ⟨none, 1, 0, false, none⟩⟩],
         categories := [⟨32, some 2, [], false, none, true, 40, none⟩],
         budgets := [] }) := by
  constructor
  · exact c10_category_budget_update_throws.1 .budget 2 "devE" 50
      ⟨30, .upsert, [("amount", Value.num 500)], 45⟩
      { expenses := [], categories := [],
        budgets := [⟨30, some 2, [("amount", Value.num 300)], false, none,
          true, 40, none⟩] }
      ⟨30, some 2, [("amount", Value.num 300)], false, none, true, 40, none⟩
      (by decide) rfl (by decide) (by decide) rfl
  · exact c10_category_budget_update_throws.2 2 "devE" 50
      ⟨31, .delete, [], 45⟩ ⟨32, .upsert, [], 45⟩
      { expenses := [⟨31, some 2, [], false, none, true, 40,
          some ⟨none, 1, 0, false, none⟩⟩],
        categories := [⟨32, some 2, [], false, none, true, 40, none⟩],
        budgets := [] }
      ⟨31, some 2, [], false, none, true, 40, some ⟨none, 1, 0, false, none⟩⟩
      ⟨32, some 2, [], false, none, true, 40, none⟩
      rfl (by decide) (by decide) rfl (by decide) (by decide) rfl

/-- C4: the push call is all-or-nothing: whenever it fails — an injected
storage failure at any point of the batch, or a thrown `TypeError` — the
transaction is aborted and the entire store rolls back to its input
state, so no partial write (including an Expense soft-delete performed
earlier in the same batch, whose `save` also ran in the session) survives
the failed call. -/
theorem c4_push_all_or_nothing (u : Nat) (d : String) (now : Nat)
    (failAt : Option Nat) (b : Batch) (s : Store) (e : String) (s2 : Store)
    (h : push u d now failAt b s = (.error e, s2)) :
    s2 = s ∧ push u d now failAt b s = (.error e, s) := by
  have hs : s2 = s := by
    unfold push at h
    split at h
    · exact (congrArg Prod.snd h).symm
    · split at h
      · exact (congrArg Prod.snd h).symm
      · split at h
        · exact (congrArg Prod.snd h).symm
        · exact absurd (congrArg Prod.fst h) (by simp)
  exact ⟨hs, by rw [h, hs]⟩

/-- Witness for C4: a batch that soft-deletes expense 3 and then hits a
storage failure at the second change fails with the store rolled back to
the input state — the soft-delete does not survive. -/
theorem c4_push_all_or_nothing_witness :
    ({ expenses := [⟨3, some 1, [], false, none, true, 30,
         some ⟨none, 1, 0, false, none⟩⟩,
       ⟨4, some 1, [], false, none, true, 30,
         some ⟨none, 1, 0, false, none⟩⟩],
       categories := [], budgets := [] } : Store) =
      { expenses := [⟨3, some 1, [], false, none, true, 30,
          some ⟨none, 1, 0, false, none⟩⟩,
        ⟨4, some 1, [], false, none, true, 30,
          some ⟨none, 1, 0, false, none⟩⟩],
        categories := [], budgets := [] }
    ∧ push 1 "devC" 40 (some 1)
        ⟨[⟨3, .delete, [], 35⟩, ⟨4, .upsert, [("amount", Value.num 2)], 35⟩],
         [], []⟩
        { expenses := [⟨3, some 1, [], false, none, true, 30,
            some ⟨none, 1, 0, false, none⟩⟩,
          ⟨4, some 1, [], false, none, true, 30,
            some ⟨none, 1, 0, false, none⟩⟩],
          categories := [], budgets := [] } =
      (.error storageErrMsg,
       { expenses := [⟨3, some 1, [], false, none, true, 30,
           some ⟨none, 1, 0, false, none⟩⟩,
         ⟨4, some 1, [], false, none, true, 30,
           some ⟨none, 1, 0, false, none⟩⟩],
         categories := [], budgets := [] }) :=
  c4_push_all_or_nothing 1 "devC" 40 (some 1)
    ⟨[⟨3, .delete, [], 35⟩, ⟨4, .upsert, [("amount", Value.num 2)], 35⟩],
     [], []⟩
    { expenses := [⟨3, some 1, [], false, none, true, 30,
        some ⟨none, 1, 0, false, none⟩⟩,
      ⟨4, some 1, [], false, none, true, 30,
        some ⟨none, 1, 0, false, none⟩⟩],
      categories := [], budgets := [] }
    storageErrMsg
    { expenses := [⟨3, some 1, [], false, none, true, 30,
        some ⟨none, 1, 0, false, none⟩⟩,
      ⟨4, some 1, [], false, none, true, 30,
        some ⟨none, 1, 0, false, none⟩⟩],
      categories := [], budgets := [] }
    (by decide)

/-- C3: in a push of three expense changes where the second conflicts and
the other two are processed, the two non-conflicting changes are committed
(the final expense collection is the one produced by applying them) and
exactly the one conflict is reported alongside them in the same
response. -/
theorem c3_conflict_does_not_block_batch (u : Nat) (d : String) (now : Nat)
    (ca cb cc : Change) (s : Store) (ita itc : Item) (cf : Conflict)
    (l1 l2 l3 : List SRecord)
    (ha : processSyncChange .expense u d now ca s.expenses =
      .ok (.item ita, l1))
    (hb : processSyncChange .expense u d now cb l1 =
      .ok (.conflict cf, l2))
    (hc : processSyncChange .expense u d now cc l2 =
      .ok (.item itc, l3)) :
    push u d now none ⟨[ca, cb, cc], [], []⟩ s =
      (.ok { conflicts := [cf], processedExpenses := [ita, itc],
             processedCategories := [], processedBudgets := [] },
       { s with expenses := l3 }) := by
  simp [push, pushKind, ha, hb, hc]

/-- Witness for C3: a concrete push of three expense changes — a create
(id 7), a conflicting update (id 5, stale timestamp), and a safe update
(id 6) — commits the two non-conflicting changes and reports exactly one
conflict. -/
theorem c3_conflict_does_not_block_batch_witness :
    push 1 "devF" 12 none
        ⟨[⟨7, .upsert, [("amount", Value.num 5)], 4⟩,
          ⟨5, .upsert, [("amount", Value.num 6)], 4⟩,
          ⟨6, .upsert, [("amount", Value.num 7)], 5⟩], [], []⟩
        { expenses := [⟨5, some 1, [], false, none, true, 9,
            some ⟨none, 2, 0, false, none⟩⟩,
          ⟨6, some 1, [("amount", Value.num 1)], false, none, true, 3,
            some ⟨none, 1, 0, false, none⟩⟩],
          categories := [], budgets := [] } =
      (.ok { conflicts := [⟨5, "expense", [("amount", Value.num 6)],
               ⟨5, some 1, [], false, none, true, 9,
                 some ⟨none, 2, 0, false, none⟩⟩,
               "concurrent_modification"⟩],
             processedExpenses :=
               [.saved ⟨7, some 1, [("amount", Value.num 5)], false, none,
                  true, 12, some ⟨some "devF", 1, 12, false, none⟩⟩,
                .saved ⟨6, some 1, [("amount", Value.num 7)], false, none,
                  true, 12, some ⟨some "devF", 2, 12, false, none⟩⟩],
             processedCategories := [], processedBudgets := [] },
       { expenses := [⟨5, some 1, [], false, none, true, 9,
           some ⟨none, 2, 0, false, none⟩⟩,
         ⟨6, some 1, [("amount", Value.num 7)], false, none, true, 12,
           some ⟨some "devF", 2, 12, false, none⟩⟩,
         ⟨7, some 1, [("amount", Value.num 5)], false, none, true, 12,
           some ⟨some "devF", 1, 12, false, none⟩⟩],
         categories := [], budgets := [] }) :=
  c3_conflict_does_not_block_batch 1 "devF" 12
    ⟨7, .upsert, [("amount", Value.num 5)], 4⟩
    ⟨5, .upsert, [("amount", Value.num 6)], 4⟩
    ⟨6, .upsert, [("amount", Value.num 7)], 5⟩
    { expenses := [⟨5, some 1, [], false, none, true, 9,
        some ⟨none, 2, 0, false, none⟩⟩,
      ⟨6, some 1, [("amount", Value.num 1)], false, none, true, 3,
        some ⟨none, 1, 0, false, none⟩⟩],
      categories := [], budgets := [] }
    (.saved ⟨7, some 1, [("amount", Value.num 5)], false, none, true, 12,
      some ⟨some "devF", 1, 12, false, none⟩⟩)
    (.saved ⟨6, some 1, [("amount", Value.num 7)], false, none, true, 12,
      some ⟨some "devF", 2, 12, false, none⟩⟩)
    ⟨5, "expense", [("amount", Value.num 6)],
      ⟨5, some 1, [], false, none, true, 9, some ⟨none, 2, 0, false, none⟩⟩,
      "concurrent_modification"⟩
    [⟨5, some 1, [], false, none, true, 9, some ⟨none, 2, 0, false, none⟩⟩,
     ⟨6, some 1, [("amount", Value.num 1)], false, none, true, 3,
       some ⟨none, 1, 0, false, none⟩⟩,
     ⟨7, some 1, [("amount", Value.num 5)], false, none, true, 12,
       some ⟨some "devF", 1, 12, false, none⟩⟩]
    [⟨5, some 1, [], false, none, true, 9, some ⟨none, 2, 0, false, none⟩⟩,
     ⟨6, some 1, [("amount", Value.num 1)], false, none, true, 3,
       some ⟨none, 1, 0, false, none⟩⟩,
     ⟨7, some 1, [("amount", Value.num 5)], false, none, true, 12,
       some ⟨some "devF", 1, 12, false, none⟩⟩]
    [⟨5, some 1, [], false, none, true, 9, some ⟨none, 2, 0, false, none⟩⟩,
     ⟨6, some 1, [("amount", Value.num 7)], false, none, true, 12,
       some ⟨some "devF", 2, 12, false, none⟩⟩,
     ⟨7, some 1, [("amount", Value.num 5)], false, none, true, 12,
       some ⟨some "devF", 1, 12, false, none⟩⟩]
    (by decide) (by decide) (by decide)

/-- C8 counterexample: two expense records of the same user share
`updatedAt = 5`; the store holds the record with the larger id (2) first,
and the feed returns ids `[2, 1]` — the tie is not broken by id, so the
output order claimed by the spec (`[1, 2]`) is not produced. -/
theorem c8_counterexample :
    ((changesFeed 1 0
        { expenses := [⟨2, some 1, [], false, none, true, 5,
            some ⟨none, 1, 0, false, none⟩⟩,
          ⟨1, some 1, [], false, none, true, 5,
            some ⟨none, 1, 0, false, none⟩⟩],
          categories := [], budgets := [] }).1).map ChangeEvent.id = [2, 1]
    ∧ ((changesFeed 1 0
        { expenses := [⟨2, some 1, [], false, none, true, 5,
            some ⟨none, 1, 0, false, none⟩⟩,
          ⟨1, some 1, [], false, none, true, 5,
            some ⟨none, 1, 0, false, none⟩⟩],
          categories := [], budgets := [] }).1).map ChangeEvent.updatedAt =
      [5, 5] := by
  constructor
  · decide
  · decide

/-- C8 amended: the change-feed query returns exactly the records of the
user with `updatedAt` strictly greater than the since-timestamp (as a
permutation of the filtered store, and membership-wise), in ascending
`updatedAt` order; equal-`updatedAt` records keep their store order — no
id tie-break is applied, so the relative order of ties is not determined
by id. -/
theorem c8_feed_selection_and_order (u since : Nat) (coll : List SRecord) :
    (changesQuery u since coll).Perm
        (coll.filter (fun r => r.userId == some u && since < r.updatedAt))
    ∧ List.Sorted feedLE (changesQuery u since coll)
    ∧ ∀ r, r ∈ changesQuery u since coll ↔
        (r ∈ coll ∧ r.userId = some u ∧ since < r.updatedAt) := by
  refine ⟨List.perm_insertionSort feedLE _,
    List.sorted_insertionSort feedLE _, fun r => ?_⟩
  rw [changesQuery, List.mem_insertionSort, List.mem_filter]
  simp

/-! ### Lemmas about Object.assign and findById -/

theorem getF_assignBag (d : Bag) : ∀ (m : Bag) (k : String),
    getF (assignBag m d) k =
      match lastVal d k with
      | some v => some v
      | none => getF m k := by
  induction d with
  | nil => intro m k; rfl
  | cons p d ih =>
    intro m k
    rw [assignBag, List.foldl_cons, ← assignBag, ih]
    cases hl : lastVal d k with
    | some v => simp [lastVal, hl]
    | none =>
      cases hp : (p.1 == k) with
      | true =>
        have hpk : p.1 = k := by simpa using hp
        simp [lastVal, hl, hp, hpk, getF_setF_self]
      | false =>
        have hpk : k ≠ p.1 := fun e => by simp [e] at hp
        simp [lastVal, hl, hp, getF_setF_ne m p.1 k p.2 hpk]

/-- Assigning the same object twice changes nothing the second time,
field-wise. -/
theorem getF_assignBag_idem (b d : Bag) (k : String) :
    getF (assignBag (assignBag b d) d) k = getF (assignBag b d) k := by
  cases hl : lastVal d k <;> simp [getF_assignBag, hl]

theorem findRec_id (coll : List SRecord) (i : Nat) (ex : SRecord)
    (h : findRec coll i = some ex) : ex.id = i := by
  have := List.find?_some h
  simpa using this

theorem findRec_replaceRec (coll : List SRecord) (i : Nat) (r : SRecord)
    (h : (findRec coll i).isSome) (hid : r.id = i) :
    findRec (replaceRec coll r) i = some r := by
  induction coll with
  | nil => simp [findRec] at h
  | cons x coll ih =>
    cases hx : (x.id == i) with
    | true =>
      have hhead : (if x.id == r.id then r else x) = r := by
        have hxi : x.id = i := by simpa using hx
        simp [hxi, hid]
      have hdr : (r.id == i) = true := by simp [hid]
      simp only [replaceRec, List.map_cons, hhead, findRec, List.find?_cons, hdr]
    | false =>
      have hxr : (x.id == r.id) = false := by rw [hid]; exact hx
      have hhead : (if x.id == r.id then r else x) = x := by simp [hxr]
      have htail : (findRec coll i).isSome := by
        simp only [findRec, List.find?_cons, hx] at h
        exact h
      have hres := ih htail
      simp only [replaceRec, List.map_cons, hhead, findRec, List.find?_cons, hx]
      exact hres

/-- C9 counterexample: pushing the identical upsert
`{id 7, amount 60, clientTimestamp 5}` twice; the first push (server time
10) applies it and stamps `updatedAt = 10`, so the second push (server
time 11) sees `updatedAt = 10 > 5` and reports a `concurrent_modification`
conflict instead of applying the write — `syncVersion` stays at 2 and is
not incremented by the second push. -/
theorem c9_counterexample :
    push 1 "devD" 10 none
        (batchOf .expense ⟨7, .upsert, [("amount", Value.num 60)], 5⟩)
        { expenses := [⟨7, some 1, [("amount", Value.num 10)], false, none,
            true, 3, some ⟨none, 1, 0, false, none⟩⟩],
          categories := [], budgets := [] } =
      (.ok { conflicts := [],
             processedExpenses := [.saved ⟨7, some 1,
               [("amount", Value.num 60)], false, none, true, 10,
               some ⟨some "devD", 2, 10, false, none⟩⟩],
             processedCategories := [], processedBudgets := [] },
       { expenses := [⟨7, some 1, [("amount", Value.num 60)], false, none,
           true, 10, some ⟨some "devD", 2, 10, false, none⟩⟩],
         categories := [], budgets := [] })
    ∧ push 1 "devD" 11 none
        (batchOf .expense ⟨7, .upsert, [("amount", Value.num 60)], 5⟩)
        { expenses := [⟨7, some 1, [("amount", Value.num 60)], false, none,
            true, 10, some ⟨some "devD", 2, 10, false, none⟩⟩],
          categories := [], budgets := [] } =
      (.ok { conflicts := [⟨7, "expense", [("amount", Value.num 60)],
               ⟨7, some 1, [("amount", Value.num 60)], false, none, true, 10,
                 some ⟨some "devD", 2, 10, false, none⟩⟩,
               "concurrent_modification"⟩],
             processedExpenses := [], processedCategories := [],
             processedBudgets := [] },
       { expenses := [⟨7, some 1, [("amount", Value.num 60)], false, none,
           true, 10, some ⟨some "devD", 2, 10, false, none⟩⟩],
         categories := [], budgets := [] }) := by
  constructor
  · decide
  · decide

/-- C9 amended: pushing the same upsert change twice with no intervening
change, the first push (server time `now1`) applies it and bumps
`syncVersion` by 1; the second push is applied as a write only when the
change's `clientTimestamp` is still at least the `updatedAt` value `now1`
stamped by the first push — in that case the payload fields are unchanged
by the second push while `syncVersion` increments again — and otherwise
the second push reports a `concurrent_modification` conflict and leaves
the store unchanged. -/
theorem c9_identical_push_twice (u : Nat) (d : String) (now1 now2 : Nat)
    (c : Change) (s : Store) (ex : SRecord) (m : SyncMeta)
    (hact : c.action = .upsert)
    (hfind : findRec s.expenses c.id = some ex)
    (hts : ex.updatedAt ≤ c.clientTimestamp)
    (hsync : ex.sync = some m) :
    ∃ r1, push u d now1 none (batchOf .expense c) s =
        (.ok { conflicts := [], processedExpenses := [.saved r1],
               processedCategories := [], processedBudgets := [] },
         { s with expenses := replaceRec s.expenses r1 })
      ∧ r1.sync.map SyncMeta.syncVersion = some (m.syncVersion + 1)
      ∧ (now1 ≤ c.clientTimestamp →
          ∃ r2, push u d now2 none (batchOf .expense c)
              { s with expenses := replaceRec s.expenses r1 } =
            (.ok { conflicts := [], processedExpenses := [.saved r2],
                   processedCategories := [], processedBudgets := [] },
             { s with expenses :=
                 replaceRec (replaceRec s.expenses r1) r2 })
          ∧ (∀ f, getF r2.fields f = getF r1.fields f)
          ∧ r2.sync.map SyncMeta.syncVersion = some (m.syncVersion + 2))
      ∧ (c.clientTimestamp < now1 →
          push u d now2 none (batchOf .expense c)
              { s with expenses := replaceRec s.expenses r1 } =
            (.ok { conflicts := [⟨c.id, "expense", c.data, r1,
                     "concurrent_modification"⟩],
                   processedExpenses := [], processedCategories := [],
                   processedBudgets := [] },
             { s with expenses := replaceRec s.expenses r1 })) := by
  have hnlt : ¬c.clientTimestamp < ex.updatedAt := not_lt.mpr hts
  have hexid : ex.id = c.id := findRec_id s.expenses c.id ex hfind
  refine ⟨⟨ex.id, ex.userId, assignBag ex.fields c.data, ex.isDeleted,
    ex.deletedAt, ex.isActive, now1, some ⟨some d, m.syncVersion + 1, now1,
      m.hasConflict, m.resolvedAt⟩⟩, ?_, ?_, ?_, ?_⟩
  · simp [push, pushKind, batchOf, processSyncChange, saveByKind,
      saveExpense, hact, hfind, hnlt, hsync]
  · rfl
  · intro h2
    have hfind2 : findRec (replaceRec s.expenses
        ⟨ex.id, ex.userId, assignBag ex.fields c.data, ex.isDeleted,
          ex.deletedAt, ex.isActive, now1, some ⟨some d, m.syncVersion + 1,
            now1, m.hasConflict, m.resolvedAt⟩⟩) c.id =
        some ⟨ex.id, ex.userId, assignBag ex.fields c.data, ex.isDeleted,
          ex.deletedAt, ex.isActive, now1, some ⟨some d, m.syncVersion + 1,
            now1, m.hasConflict, m.resolvedAt⟩⟩ :=
      findRec_replaceRec s.expenses c.id _ (by rw [hfind]; rfl) hexid
    have hnlt2 : ¬c.clientTimestamp < now1 := not_lt.mpr h2
    refine ⟨⟨ex.id, ex.userId, assignBag (assignBag ex.fields c.data) c.data,
      ex.isDeleted, ex.deletedAt, ex.isActive, now2,
      some ⟨some d, m.syncVersion + 1 + 1, now2, m.hasConflict,
        m.resolvedAt⟩⟩, ?_, ?_, ?_⟩
    · simp [push, pushKind, batchOf, processSyncChange, saveByKind,
        saveExpense, hact, hfind2, hnlt2]
    · intro f
      exact getF_assignBag_idem ex.fields c.data f
    · rfl
  · intro h2
    have hfind2 : findRec (replaceRec s.expenses
        ⟨ex.id, ex.userId, assignBag ex.fields c.data, ex.isDeleted,
          ex.deletedAt, ex.isActive, now1, some ⟨some d, m.syncVersion + 1,
            now1, m.hasConflict, m.resolvedAt⟩⟩) c.id =
        some ⟨ex.id, ex.userId, assignBag ex.fields c.data, ex.isDeleted,
          ex.deletedAt, ex.isActive, now1, some ⟨some d, m.syncVersion + 1,
            now1, m.hasConflict, m.resolvedAt⟩⟩ :=
      findRec_replaceRec s.expenses c.id _ (by rw [hfind]; rfl) hexid
    simp [push, pushKind, batchOf, processSyncChange, kindName, hact, hfind2, h2]

/-- Witness for the amended C9 at a concrete input: the identical change
carries `clientTimestamp 12`, ahead of both the record time 3 and the
first-push server time 10, so both pushes apply. -/
theorem c9_identical_push_twice_witness :
    ∃ r1, push 1 "devD" 10 none
        (batchOf .expense ⟨7, .upsert, [("amount", Value.num 60)], 12⟩)
        { expenses := [⟨7, some 1, [("amount", Value.num 10)], false, none,
            true, 3, some ⟨none, 1, 0, false, none⟩⟩],
          categories := [], budgets := [] } =
        (.ok { conflicts := [], processedExpenses := [.saved r1],
               processedCategories := [], processedBudgets := [] },
         { expenses := replaceRec
             [⟨7, some 1, [("amount", Value.num 10)], false, none, true, 3,
               some ⟨none, 1, 0, false, none⟩⟩] r1,
           categories := [], budgets := [] })
      ∧ r1.sync.map SyncMeta.syncVersion = some (1 + 1)
      ∧ (10 ≤ 12 →
          ∃ r2, push 1 "devD" 11 none
              (batchOf .expense ⟨7, .upsert, [("amount", Value.num 60)], 12⟩)
              { expenses := replaceRec
                  [⟨7, some 1, [("amount", Value.num 10)], false, none,
                    true, 3, some ⟨none, 1, 0, false, none⟩⟩] r1,
                categories := [], budgets := [] } =
            (.ok { conflicts := [], processedExpenses := [.saved r2],
                   processedCategories := [], processedBudgets := [] },
             { expenses := replaceRec (replaceRec
                 [⟨7, some 1, [("amount", Value.num 10)], false, none,
                   true, 3, some ⟨none, 1, 0, false, none⟩⟩] r1) r2,
               categories := [], budgets := [] })
          ∧ (∀ f, getF r2.fields f = getF r1.fields f)
          ∧ r2.sync.map SyncMeta.syncVersion = some (1 + 2))
      ∧ (12 < 10 →
          push 1 "devD" 11 none
              (batchOf .expense ⟨7, .upsert, [("amount", Value.num 60)], 12⟩)
              { expenses := replaceRec
                  [⟨7, some 1, [("amount", Value.num 10)], false, none,
                    true, 3, some ⟨none, 1, 0, false, none⟩⟩] r1,
                categories := [], budgets := [] } =
            (.ok { conflicts := [⟨7, "expense", [("amount", Value.num 60)],
                     r1, "concurrent_modification"⟩],
                   processedExpenses := [], processedCategories := [],
                   processedBudgets := [] },
             { expenses := replaceRec
                 [⟨7, some 1, [("amount", Value.num 10)], false, none,
                   true, 3, some ⟨none, 1, 0, false, none⟩⟩] r1,
               categories := [], budgets := [] })) :=
  c9_identical_push_twice 1 "devD" 10 11
    ⟨7, .upsert, [("amount", Value.num 60)], 12⟩
    { expenses := [⟨7, some 1, [("amount", Value.num 10)], false, none,
        true, 3, some ⟨none, 1, 0, false, none⟩⟩],
      categories := [], budgets := [] }
    ⟨7, some 1, [("amount", Value.num 10)], false, none, true, 3,
      some ⟨none, 1, 0, false, none⟩⟩
    ⟨none, 1, 0, false, none⟩
    rfl (by decide) (by decide) rfl

/-- A storage failure injected anywhere inside the resolver loop surfaces
as an error of the whole call. -/
theorem resolveAux_error_at (now : Nat) (reqs : List ResolutionReq) :
    ∀ (j idx : Nat) (s : Store), idx ≤ j → j < idx + reqs.length →
    (resolveAux now (some j) reqs idx s).1 = .error storageErrMsg := by
  induction reqs with
  | nil =>
    intro j idx s h1 h2
    simp only [List.length_nil, Nat.add_zero] at h2
    exact absurd h2 (by omega)
  | cons req reqs ih =>
    intro j idx s h1 h2
    by_cases hj : j = idx
    · subst hj
      simp [resolveAux]
    · have hne : ¬((some j : Option Nat) = some idx) := by simpa using hj
      rw [resolveAux, if_neg hne]
      cases hstep : resolveStep now req s with
      | none => exact ih j (idx + 1) s (by omega) (by simp at h2; omega)
      | some pr =>
        rcases pr with ⟨item, s2⟩
        have hrec := ih j (idx + 1) s2 (by omega) (by simp at h2; omega)
        rcases hres : resolveAux now (some j) reqs (idx + 1) s2 with ⟨res, s3⟩
        rw [hres] at hrec
        cases res with
        | error e => simpa [hres] using hrec
        | ok items => exact absurd hrec (by simp)

/-- C7 amended: each resolution of a resolve-conflicts call (with a known
entity type and strategy) is applied sequentially inside the call's single
transaction: on an existing record it overwrites the payload fields with
the computed final data, clears `sync.conflictResolution.hasConflict` and
stamps `resolvedAt` (when the record carries a `sync` subdocument), and
leaves both `syncVersion` and `updatedAt` unchanged; a missing record is
created by the upsert; and a storage failure at any point of the call
rolls the whole call back — the resolutions are not independently
committed. -/
theorem c7_resolution_semantics :
    (∀ (now : Nat) (req : ResolutionReq) (s : Store) (k : Kind) (fd : Bag)
       (ex : SRecord),
       parseKind req.type = some k → finalDataFor req = some fd →
       findRec (collOf s k) req.id = some ex →
       ∃ rr, resolveConflicts none now [req] s =
           (.ok [⟨req.id, req.type, req.resolution, rr⟩],
            setColl s k (replaceRec (collOf s k) rr))
         ∧ rr.fields = assignBag ex.fields fd
         ∧ rr.sync = ex.sync.map (fun mm =>
             { mm with hasConflict := false, resolvedAt := some now })
         ∧ rr.sync.map SyncMeta.syncVersion = ex.sync.map SyncMeta.syncVersion
         ∧ rr.updatedAt = ex.updatedAt)
    ∧ (∀ (now : Nat) (req : ResolutionReq) (s : Store) (k : Kind) (fd : Bag),
       parseKind req.type = some k → finalDataFor req = some fd →
       findRec (collOf s k) req.id = none →
       resolveConflicts none now [req] s =
         (.ok [⟨req.id, req.type, req.resolution,
            ⟨req.id, none, fd, false, none, true, now,
             if k = .expense then some ⟨none, 1, now, false, some now⟩
             else none⟩⟩],
          setColl s k (collOf s k ++
            [⟨req.id, none, fd, false, none, true, now,
              if k = .expense then some ⟨none, 1, now, false, some now⟩
              else none⟩])))
    ∧ (∀ (now : Nat) (reqs : List ResolutionReq) (j : Nat) (s : Store),
       j < reqs.length →
       resolveConflicts (some j) now reqs s = (.error storageErrMsg, s)) := by
  refine ⟨?_, ?_, ?_⟩
  · intro now req s k fd ex hparse hfd hfind
    refine ⟨⟨ex.id, ex.userId, assignBag ex.fields fd, ex.isDeleted,
      ex.deletedAt, ex.isActive, ex.updatedAt,
      ex.sync.map (fun mm =>
        { mm with hasConflict := false, resolvedAt := some now })⟩,
      ?_, rfl, rfl, ?_, rfl⟩
    · simp [resolveConflicts, resolveAux, resolveStep, resolveUpdate,
        hparse, hfd, hfind]
    · cases ex.sync <;> rfl
  · intro now req s k fd hparse hfd hfind
    simp [resolveConflicts, resolveAux, resolveStep, resolveUpdate,
      hparse, hfd, hfind]
  · intro now reqs j s hj
    have h := resolveAux_error_at now reqs j 0 s (Nat.zero_le j)
      (by omega)
    rcases hres : resolveAux now (some j) reqs 0 s with ⟨res, s2⟩
    rw [hres] at h
    cases res with
    | error e =>
      simp only at h
      rw [resolveConflicts, hres]
      rw [h]
    | ok items => exact absurd h (by simp)

/-- Witness for the amended C7: a `remote` resolution on an existing
expense, a `local` resolution creating a missing category, and a storage
failure at the second of two resolutions rolling the call back. -/
theorem c7_resolution_semantics_witness :
    (∃ rr, resolveConflicts none 9
        [⟨1, "expense", "remote", [], [("amount", Value.num 40)]⟩]
        { expenses := [⟨1, some 1, [("amount", Value.num 10)], false, none,
            true, 3, some ⟨some "d", 5, 0, true, none⟩⟩],
          categories := [], budgets := [] } =
        (.ok [⟨1, "expense", "remote", rr⟩],
         setColl
           { expenses := [⟨1, some 1, [("amount", Value.num 10)],
                 false, none, true, 3, some ⟨some "d", 5, 0, true, none⟩⟩],
             categories := [], budgets := [] } .expense
           (replaceRec [⟨1, some 1, [("amount", Value.num 10)], false, none,
             true, 3, some ⟨some "d", 5, 0, true, none⟩⟩] rr))
      ∧ rr.fields = assignBag [("amount", Value.num 10)]
          [("amount", Value.num 40)]
      ∧ rr.sync = (some (⟨some "d", 5, 0, true, none⟩ : SyncMeta)).map
          (fun mm => { mm with hasConflict := false, resolvedAt := some 9 })
      ∧ rr.sync.map SyncMeta.syncVersion =
          (some (⟨some "d", 5, 0, true, none⟩ : SyncMeta)).map
            SyncMeta.syncVersion
      ∧ rr.updatedAt = 3)
    ∧ resolveConflicts none 9
        [⟨9, "category", "local", [("name", Value.str "N")], []⟩]
        { expenses := [], categories := [], budgets := [] } =
      (.ok [⟨9, "category", "local",
         ⟨9, none, [("name", Value.str "N")], false, none, true, 9,
          if Kind.category = .expense
          then some ⟨none, 1, 9, false, some 9⟩ else none⟩⟩],
       setColl { expenses := [], categories := [], budgets := [] } .category
         ([] ++ [⟨9, none, [("name", Value.str "N")], false, none, true, 9,
           if Kind.category = .expense
           then some ⟨none, 1, 9, false, some 9⟩ else none⟩]))
    ∧ resolveConflicts (some 1) 9
        [⟨1, "expense", "local", [("amount", Value.num 99)], []⟩,
         ⟨2, "expense", "local", [("amount", Value.num 98)], []⟩]
        { expenses := [⟨1, some 1, [], false, none, true, 3,
            some ⟨none, 1, 0, true, none⟩⟩,
          ⟨2, some 1, [], false, none, true, 3,
            some ⟨none, 1, 0, true, none⟩⟩],
          categories := [], budgets := [] } =
      (.error storageErrMsg,
       { expenses := [⟨1, some 1, [], false, none, true, 3,
           some ⟨none, 1, 0, true, none⟩⟩,
         ⟨2, some 1, [], false, none, true, 3,
           some ⟨none, 1, 0, true, none⟩⟩],
         categories := [], budgets := [] }) := by
  refine ⟨?_, ?_, ?_⟩
  · exact c7_resolution_semantics.1 9
      ⟨1, "expense", "remote", [], [("amount", Value.num 40)]⟩
      { expenses := [⟨1, some 1, [("amount", Value.num 10)], false, none,
          true, 3, some ⟨some "d", 5, 0, true, none⟩⟩],
        categories := [], budgets := [] }
      .expense [("amount", Value.num 40)]
      ⟨1, some 1, [("amount", Value.num 10)], false, none, true, 3,
        some ⟨some "d", 5, 0, true, none⟩⟩
      rfl rfl (by decide)
  · exact c7_resolution_semantics.2.1 9
      ⟨9, "category", "local", [("name", Value.str "N")], []⟩
      { expenses := [], categories := [], budgets := [] }
      .category [("name", Value.str "N")] rfl rfl (by decide)
  · exact c7_resolution_semantics.2.2 9
      [⟨1, "expense", "local", [("amount", Value.num 99)], []⟩,
       ⟨2, "expense", "local", [("amount", Value.num 98)], []⟩] 1
      { expenses := [⟨1, some 1, [], false, none, true, 3,
          some ⟨none, 1, 0, true, none⟩⟩,
        ⟨2, some 1, [], false, none, true, 3,
          some ⟨none, 1, 0, true, none⟩⟩],
        categories := [], budgets := [] }
      (by decide)

/-- C7 counterexample: resolving a conflict with strategy `remote` leaves
the record's `syncVersion` at 5 — the record's version is not bumped — and
with two resolutions in one call, a storage failure at the second rolls
back the first as well, so each resolution is not independently committed
as its own write. -/
theorem c7_counterexample :
    ((resolveConflicts none 9
        [⟨1, "expense", "remote", [], [("amount", Value.num 40)]⟩]
        { expenses := [⟨1, some 1, [("amount", Value.num 10)], false, none,
            true, 3, some ⟨some "d", 5, 0, true, none⟩⟩],
          categories := [], budgets := [] }).2.expenses.map
        (fun r => r.sync.map SyncMeta.syncVersion)) = [some 5]
    ∧ resolveConflicts (some 1) 11
        [⟨3, "expense", "local", [("amount", Value.num 70)], []⟩,
         ⟨4, "expense", "local", [("amount", Value.num 71)], []⟩]
        { expenses := [⟨3, some 1, [], false, none, true, 4,
            some ⟨none, 2, 0, true, none⟩⟩,
          ⟨4, some 1, [], false, none, true, 4,
            some ⟨none, 2, 0, true, none⟩⟩],
          categories := [], budgets := [] } =
      (.error storageErrMsg,
       { expenses := [⟨3, some 1, [], false, none, true, 4,
           some ⟨none, 2, 0, true, none⟩⟩,
         ⟨4, some 1, [], false, none, true, 4,
           some ⟨none, 2, 0, true, none⟩⟩],
         categories := [], budgets := [] }) := by
  constructor
  · decide
  · decide
